import Mathlib

/-!
# Verification of the mfg-audit trade-analysis pipeline

Shallow embedding of the batch scripts (`scripts/calculate_trade_deficit.py`,
`scripts/generate_china_index.py`, `scripts/get_hs6_trade_deficit.py`,
`scripts/defense_index.py`) and of the query engine (`app.py`) of the
mfg-audit repository, together with proofs of the specified properties.

Python dictionaries are modelled as insertion-ordered association lists
(`Dict α = List (String × α)`); a well-formed dictionary has pairwise
distinct keys.  Python `dict.get(k, d)` is `dictGet`, assignment
`d[k] = v` is `dictInsert` (replace in place or append), `d.pop(k, None)`
is `dictRemove`.  Python float division is idealised as exact rational
division; machine integers are `Int` (Python integers are unbounded, so
no modular wrap is needed).  Fallible code returns `Except String`.
-/

namespace MfgAudit

/-- Python dictionary with string keys, as an insertion-ordered association
list. -/
abbrev Dict (α : Type) := List (String × α)

/-- `d.get(k)` / `d[k]` lookup: first (under well-formedness, unique) entry
with the given key. -/
def dlookup {α : Type} (d : Dict α) (k : String) : Option α :=
  match d with
  | [] => none
  | (k', v) :: t => if k' = k then some v else dlookup t k

/-- Python `d.get(k, default)`. -/
def dictGet {α : Type} (d : Dict α) (k : String) (default : α) : α :=
  (dlookup d k).getD default

/-- Python `k in d`. -/
def containsKey {α : Type} (d : Dict α) (k : String) : Bool :=
  (dlookup d k).isSome

/-- Python `d[k] = v`: replace the entry in place if the key is present,
otherwise append at the end (insertion order semantics). -/
def dictInsert {α : Type} (d : Dict α) (k : String) (v : α) : Dict α :=
  match d with
  | [] => [(k, v)]
  | (k', v') :: t => if k' = k then (k, v) :: t else (k', v') :: dictInsert t k v

/-- Python `d.pop(k, None)` (the removing effect on the dictionary). -/
def dictRemove {α : Type} (d : Dict α) (k : String) : Dict α :=
  d.filter (fun p => p.1 ≠ k)

/-- Python `d.keys()`. -/
def keys {α : Type} (d : Dict α) : List String :=
  d.map Prod.fst

/-- A well-formed Python dictionary: keys are pairwise distinct. -/
def wfDict {α : Type} (d : Dict α) : Prop :=
  (keys d).Nodup

/-! ## Generic list utilities shared by the embeddings -/

/-- Python `set(xs)` as a duplicate-free list, keeping first occurrences
(the set's iteration order is irrelevant to every property proved below). -/
def dedupFirst : List String → List String
  | [] => []
  | x :: t => x :: (dedupFirst t).filter (fun y => y ≠ x)

/-- Python `max(xs)`: `none` models the `ValueError` raised on an empty
sequence. -/
def maxList (l : List Int) : Option Int :=
  match l with
  | [] => none
  | x :: t => some (t.foldl max x)

/-- Python slicing `xs[:n]` for an arbitrary (possibly negative) `n`. -/
def pySlice {α : Type} (l : List α) (n : Int) : List α :=
  if 0 ≤ n then l.take n.toNat else l.take (l.length - (-n).toNat)

/-- Stable insertion into a descending-sorted list (used to model Python's
`sorted(..., reverse=True)`; the claims below depend only on the output
being a sorted permutation of the input). -/
def insertDesc {α β : Type} [LinearOrder β] (key : α → β) (x : α) :
    List α → List α
  | [] => [x]
  | y :: ys => if key y ≤ key x then x :: y :: ys else y :: insertDesc key x ys

/-- Python `sorted(l, key=key, reverse=True)`. -/
def sortDescBy {α β : Type} [LinearOrder β] (key : α → β) (l : List α) :
    List α :=
  l.foldr (insertDesc key) []

/-- Boolean check that a list is sorted in descending order of `key`. -/
def isSortedDescOn {α β : Type} [LinearOrder β] (key : α → β) :
    List α → Bool
  | [] => true
  | [_] => true
  | a :: b :: t => decide (key b ≤ key a) && isSortedDescOn key (b :: t)

/-- Whether the character list `needle` occurs at the start of `hay`. -/
def listStartsWith : List Char → List Char → Bool
  | [], _ => true
  | _ :: _, [] => false
  | a :: as, b :: bs => a == b && listStartsWith as bs

/-- Whether `needle` occurs contiguously anywhere in `hay`. -/
def containsSub (needle : List Char) : List Char → Bool
  | [] => needle.isEmpty
  | b :: t => listStartsWith needle (b :: t) || containsSub needle t

/-- Python `needle in hay` on strings. -/
def pyInStr (needle hay : String) : Bool :=
  containsSub needle.toList hay.toList

/-- Python `s.lower()`: per-character lowercasing (ASCII-faithful). -/
def pyLower (s : String) : String :=
  ⟨s.data.map Char.toLower⟩

/-! ## Data model (spec §3 / §6)

A trade record is the per-HS6 JSON object
`{export_value: {country: int}, import_value: {country: int}, deficit: ...}`.
Each field is `Option`-valued because the corresponding dictionary key may be
absent (the `deficit` key only exists after the Deficit Calculator pass, and
the Python code reads every field with `data.get(..., {})`); a record with
all three keys absent models the literally empty JSON object `{}`, which is
falsy in Python. -/

structure TradeRecord where
  export_value : Option (Dict Int)
  import_value : Option (Dict Int)
  deficit : Option (Dict Int)
deriving DecidableEq, Repr

/-- Python truthiness of a trade-record dict: `{}` (no keys) is falsy, any
record with at least one key present is truthy. -/
def TradeRecord.pyTruthy (r : TradeRecord) : Bool :=
  r.export_value.isSome || r.import_value.isSome || r.deficit.isSome

/-- Defense index entry `{hs6, description, score, reasoning}`
(`scripts/defense_index.py`). -/
structure DefenseEntry where
  hs6 : String
  description : String
  score : Int
  reasoning : String
deriving DecidableEq, Repr

/-! ## Deficit Calculator (`scripts/calculate_trade_deficit.py`) -/

/-- `set(exports.keys()) | set(imports.keys())` — the union of the two key
sets, as a duplicate-free list. -/
def unionCountries (exports imports : Dict Int) : List String :=
  dedupFirst (keys exports ++ keys imports)

/-- The per-country deficit dictionary built by the loop in
`calculate_deficits`: for each country in the union,
`deficit[country] = imports.get(country, 0) - exports.get(country, 0)`. -/
def computeDeficit (exports imports : Dict Int) : Dict Int :=
  (unionCountries exports imports).map
    (fun country => (country, dictGet imports country 0 - dictGet exports country 0))

/-- One iteration of `calculate_deficits`: reads `export_value` and
`import_value` with `data.get(..., {})` and assigns `data["deficit"]`. -/
def calcDeficitRecord (r : TradeRecord) : TradeRecord :=
  let d := computeDeficit (r.export_value.getD []) (r.import_value.getD [])
  { r with deficit := some d }

/-- `calculate_deficits(trade_data)`: augments every HS6 record with its
`deficit` dictionary and returns the (mutated) mapping. -/
def calculate_deficits (trade_data : Dict TradeRecord) : Dict TradeRecord :=
  trade_data.map (fun p => (p.1, calcDeficitRecord p.2))

/-! ## China index (`scripts/generate_china_index.py`) -/

/-- `data.get("deficit", {}).get("CHINA", 0)` for one trade record. -/
def chinaDeficitOf (r : TradeRecord) : Int :=
  dictGet (r.deficit.getD []) "CHINA" 0

/-- `generate_china_index(trade_data)`: keep the HS6 codes whose China
deficit is strictly positive and sort descending by deficit. -/
def generate_china_index (trade_data : Dict TradeRecord) : Dict Int :=
  let china_deficits := trade_data.filterMap (fun p =>
    let china_deficit := chinaDeficitOf p.2
    if china_deficit > 0 then some (p.1, china_deficit) else none)
  sortDescBy (fun x => x.2) china_deficits

/-! ## Trade Fetcher (`scripts/get_hs6_trade_deficit.py`)

A row of the Census API response is `[CTY_CODE, CTY_NAME, value]`; the name
and the value are `Option String` because either may be JSON `null` (Python
`None`).  `int(value)` is modelled by `String.toInt?` (exact Python integer
literal syntax is immaterial to every property below); its failure raises
`ValueError`, which the per-code exception handler turns into an error
record for the whole code. -/

structure ApiRow where
  cty_code : String
  country : Option String
  value : Option String
deriving DecidableEq, Repr

/-- Body of the per-row loop in `fetch_hs6_data`:
`if country and value and country != "TOTAL FOR ALL COUNTRIES":
   d[country] = int(value) if value != "null" else 0`. -/
def parseRow (d : Dict Int) (row : ApiRow) : Except String (Dict Int) :=
  match row.country, row.value with
  | some c, some v =>
    if c ≠ "" ∧ v ≠ "" ∧ c ≠ "TOTAL FOR ALL COUNTRIES" then
      if v = "null" then Except.ok (dictInsert d c 0)
      else
        match v.toInt? with
        | some n => Except.ok (dictInsert d c n)
        | none =>
          Except.error ("ValueError: invalid literal for int() with base 10: " ++ v)
    else Except.ok d
  | _, _ => Except.ok d

/-- The row loop, threading the Python exception through `Except`. -/
def parseRowsAux : List ApiRow → Except String (Dict Int) →
    Except String (Dict Int)
  | _, Except.error e => Except.error e
  | [], acc => acc
  | row :: t, Except.ok d => parseRowsAux t (parseRow d row)

/-- Parse one API payload into a per-country dictionary:
`if data and len(data) > 1: for row in data[1:]: ...` (the first row is the
header). -/
def parsePayload (payload : List ApiRow) : Except String (Dict Int) :=
  if 1 < payload.length then parseRowsAux payload.tail (Except.ok [])
  else Except.ok []

/-- The value stored per HS6 code in `data/trade_deficit.json`. -/
structure FetchVal where
  export_value : Dict Int
  import_value : Dict Int
deriving DecidableEq, Repr

/-- Error-collection entry `{"hscode": hs6, "error": msg}`. -/
structure FetchErr where
  hscode : String
  error : String
deriving DecidableEq, Repr

/-- `fetch_hs6_data` for one code, given the outcome of the two HTTP
requests (`Except.error` models a network failure / non-2xx status /
malformed payload raised inside the request).  Exports are fetched and
parsed before imports; the first exception wins and fails the whole code. -/
def fetch_hs6_data (expResp impResp : Except String (List ApiRow)) :
    Except String FetchVal :=
  match expResp with
  | Except.error e => Except.error e
  | Except.ok expRows =>
    match parsePayload expRows with
    | Except.error e => Except.error e
    | Except.ok export_dict =>
      match impResp with
      | Except.error e => Except.error e
      | Except.ok impRows =>
        match parsePayload impRows with
        | Except.error e => Except.error e
        | Except.ok import_dict => Except.ok ⟨export_dict, import_dict⟩

/-- Merge of one completed task into the accumulators (`main`):
`results[hs6] = result; errors.pop(hs6, None)` on success,
`errors[hs6] = {"hscode": hs6, "error": error}` on failure. -/
def fetchStep (outcome : String → Except String FetchVal)
    (acc : Dict FetchVal × Dict FetchErr) (hs6 : String) :
    Dict FetchVal × Dict FetchErr :=
  match outcome hs6 with
  | Except.ok v => (dictInsert acc.1 hs6 v, dictRemove acc.2 hs6)
  | Except.error e => (acc.1, dictInsert acc.2 hs6 ⟨hs6, e⟩)

/-- The non-retry target list:
`hs_codes = [hc for hc in all_codes if hc not in results]`. -/
def todoFetch (all_codes : List String) (results : Dict FetchVal) :
    List String :=
  all_codes.filter (fun hc => !(containsKey results hc))

/-- The completion loop of `main` over a given completion order. -/
def runFetchLoop (outcome : String → Except String FetchVal)
    (acc : Dict FetchVal × Dict FetchErr) (todo : List String) :
    Dict FetchVal × Dict FetchErr :=
  todo.foldl (fetchStep outcome) acc

/-- One non-retry run of the Trade Fetcher's `main` given the per-code
request outcomes: skip codes already in `results`, process the rest, merge
into the two collections.  (The periodic batch save writes the same
accumulators it keeps folding into, so the final state is independent of
the save cadence.) -/
def runFetch (outcome : String → Except String FetchVal)
    (all_codes : List String) (results : Dict FetchVal)
    (errors : Dict FetchErr) : Dict FetchVal × Dict FetchErr :=
  runFetchLoop outcome (results, errors) (todoFetch all_codes results)

/-- The Trade Fetcher with each code's outcome given by its two raw API
responses, as in the source (`fetch_hs6_data` per code). -/
def runTradeFetcher
    (resp : String → Except String (List ApiRow) × Except String (List ApiRow))
    (all_codes : List String) (results : Dict FetchVal)
    (errors : Dict FetchErr) : Dict FetchVal × Dict FetchErr :=
  runFetch (fun hs6 => fetch_hs6_data (resp hs6).1 (resp hs6).2)
    all_codes results errors

/-! ## Criticality Scorer (`scripts/defense_index.py`) -/

/-- The raw structured output requested from the model, before pydantic
validation of the `DefenseScore` schema. -/
structure ModelOutput where
  score : Int
  reasoning : String
deriving DecidableEq, Repr

/-- Pydantic validation of `DefenseScore(score=Field(ge=0, le=10), ...)`:
an out-of-range score fails schema validation (raising inside
`client.responses.parse`), it is never clamped. -/
def validateScore (m : ModelOutput) : Except String ModelOutput :=
  if 0 ≤ m.score ∧ m.score ≤ 10 then Except.ok m
  else Except.error "ValidationError: score must be in the range 0..10"

/-- `score_defense_criticality` for one code, given the model's raw
response (`Except.error` models any exception raised before validation).
Returns the `(hs6, result, error)` triple of the source. -/
def score_defense_criticality (hs6 description : String)
    (response : Except String ModelOutput) :
    String × Option DefenseEntry × Option String :=
  match response.bind validateScore with
  | Except.ok out => (hs6, some ⟨hs6, description, out.score, out.reasoning⟩, none)
  | Except.error e => (hs6, none, some e)

/-- Scorer error-collection entry `{"hs6": .., "description": .., "error": ..}`. -/
structure ScoreErr where
  hs6 : String
  description : String
  error : String
deriving DecidableEq, Repr

/-- Merge of one completed scoring task into the accumulators (`main` of
`defense_index.py`). -/
def scorerStep (model : String → Except String ModelOutput)
    (acc : Dict DefenseEntry × Dict ScoreErr) (item : String × String) :
    Dict DefenseEntry × Dict ScoreErr :=
  match score_defense_criticality item.1 item.2 (model item.1) with
  | (hs6, some entry, _) => (dictInsert acc.1 hs6 entry, dictRemove acc.2 hs6)
  | (hs6, none, err) =>
    (acc.1, dictInsert acc.2 hs6 ⟨hs6, item.2, err.getD ""⟩)

/-- One non-retry run of the Criticality Scorer's `main`: skip codes already
in `results` and fold the remaining completions into the accumulators. -/
def runScorer (model : String → Except String ModelOutput)
    (all_codes : Dict String) (results : Dict DefenseEntry)
    (errors : Dict ScoreErr) : Dict DefenseEntry × Dict ScoreErr :=
  let hs_codes := all_codes.filter (fun p => !(containsKey results p.1))
  hs_codes.foldl (scorerStep model) (results, errors)

/-! ## In-memory query engine (`app.py`)

`data_store` after `load_data()`.  `hs6_descriptions` and `hs6_to_naics`
are the derived lookups built at load time; the claims below quantify over
arbitrary store contents. -/

structure DataStore where
  naics_products : Dict (List String × List String)
  trade_deficit : Dict TradeRecord
  china_index : Dict Int
  defense_index : Dict DefenseEntry
  naics_names : Dict String
  hs6_to_naics : Dict (List String)
  hs6_descriptions : Dict String

/-- One element of the `/api/products` response list. -/
structure ProductSummary where
  hs6 : String
  description : String
  china_deficit : Int
  china_import_share : ℚ
  defense_score : Int
  trade_balance : Int
  total_exports : Int
  total_imports : Int
deriving DecidableEq, Repr

/-- `/api/products` response: `{"products": ..., "total": ...}`. -/
structure ProductsResponse where
  products : List ProductSummary
  total : Nat
deriving DecidableEq, Repr

/-- Python truthiness of the optional `search` query parameter:
`None` and `""` are falsy. -/
def pyTruthySearch : Option String → Bool
  | none => false
  | some s => !(s = "")

/-- The search filter of `get_products`: `if search:` (falsy `None`/`""`
disables filtering), then case-insensitive substring match of the search
string against the HS6 code or the description. -/
def productsKeep (search : Option String) (hs6 desc : String) : Bool :=
  if pyTruthySearch search then
    let search_lower := pyLower (search.getD "")
    pyInStr search_lower (pyLower hs6) || pyInStr search_lower (pyLower desc)
  else true

/-- The body of the per-product loop of `get_products` (description lookup,
search filter, metric computation); `none` models `continue`. -/
def productsRow (store : DataStore) (search : Option String)
    (p : String × TradeRecord) : Option ProductSummary :=
  let hs6 := p.1
  let trade := p.2
  let desc := dictGet store.hs6_descriptions hs6 ""
  if productsKeep search hs6 desc then
    let china_deficit := dictGet store.china_index hs6 0
    let defense_score := ((dlookup store.defense_index hs6).map
      (fun i => i.score)).getD 0
    let export_values := trade.export_value.getD []
    let import_values := trade.import_value.getD []
    let total_exports : Int := (export_values.map (fun q => q.2)).sum
    let total_imports : Int := (import_values.map (fun q => q.2)).sum
    let china_imports : Int := ((import_values.find?
      (fun q => q.1.toUpper = "CHINA")).map (fun q => q.2)).getD 0
    let china_import_share : ℚ :=
      if total_imports > 0 then (china_imports : ℚ) / (total_imports : ℚ) else 0
    some { hs6 := hs6, description := desc, china_deficit := china_deficit,
           china_import_share := china_import_share,
           defense_score := defense_score,
           trade_balance := total_exports - total_imports,
           total_exports := total_exports, total_imports := total_imports }
  else none

/-- The filtered (pre-sort) product list of `get_products`. -/
def filteredProducts (store : DataStore) (search : Option String) :
    List ProductSummary :=
  store.trade_deficit.filterMap (productsRow store search)

/-- `GET /api/products?search=&limit=` (default `limit` is `1000`): filter,
sort descending by China deficit, then truncate with `products[:limit]`. -/
def get_products (store : DataStore) (search : Option String)
    (limit : Int) : ProductsResponse :=
  let products := filteredProducts store search
  let sorted := sortDescBy (fun x => x.china_deficit) products
  { products := pySlice sorted limit, total := products.length }

/-- Per-country row of the product-detail breakdown. -/
structure CountryRow where
  country : String
  exports : Int
  imports : Int
  balance : Int
deriving DecidableEq, Repr

/-- `/api/products/{hs6}` success payload. -/
structure ProductDetail where
  hs6 : String
  description : String
  defense_score : Int
  defense_reasoning : String
  china_deficit : Int
  china_import_share : ℚ
  china_imports : Int
  total_imports : Int
  countries : List CountryRow
  naics : List (String × String)
deriving DecidableEq, Repr

/-- `/api/products/{hs6}` result: either the JSON error object
`{"error": "Product not found"}` (the NotFound indicator) or the detail
payload.  No exception escapes the handler in either case. -/
inductive DetailResponse where
  | err (msg : String)
  | ok (d : ProductDetail)
deriving DecidableEq, Repr

/-- Intermediate per-country aggregate used while building the breakdown. -/
structure CountryVals where
  exports : Int
  imports : Int
  balance : Int
deriving DecidableEq, Repr

/-- The detail payload built by `get_product_detail` once the truthiness
guard has passed (the remainder of the handler's body). -/
def product_detail_body (store : DataStore) (hs6 : String)
    (trade : TradeRecord) : ProductDetail :=
  let export_values := trade.export_value.getD []
  let import_values := trade.import_value.getD []
  let countries0 : Dict CountryVals := export_values.foldl
    (fun d q => dictInsert d q.1 ⟨q.2, 0, q.2⟩) []
  let step := fun (acc : Dict CountryVals × Int) (q : String × Int) =>
    let d := acc.1
    let d' := match dlookup d q.1 with
      | some cv => dictInsert d q.1 ⟨cv.exports, q.2, cv.exports - q.2⟩
      | none => dictInsert d q.1 ⟨0, q.2, -q.2⟩
    (d', if q.1.toUpper = "CHINA" then q.2 else acc.2)
  let built := import_values.foldl step (countries0, 0)
  let china_imports := built.2
  let country_list := built.1.map
    (fun q => CountryRow.mk q.1 q.2.exports q.2.imports q.2.balance)
  let country_sorted := sortDescBy
    (fun r : CountryRow => r.exports + r.imports) country_list
  let total_imports : Int := (import_values.map (fun q => q.2)).sum
  let china_import_share : ℚ :=
    if total_imports > 0 then (china_imports : ℚ) / (total_imports : ℚ)
    else 0
  let defense_score := ((dlookup store.defense_index hs6).map
    (fun i => i.score)).getD 0
  let defense_reasoning := ((dlookup store.defense_index hs6).map
    (fun i => i.reasoning)).getD ""
  let naics_codes := dictGet store.hs6_to_naics hs6 []
  let naics_list := naics_codes.map
    (fun code => (code, dictGet store.naics_names code ""))
  { hs6 := hs6,
    description := dictGet store.hs6_descriptions hs6 "",
    defense_score := defense_score,
    defense_reasoning := defense_reasoning,
    china_deficit := dictGet store.china_index hs6 0,
    china_import_share := china_import_share,
    china_imports := china_imports,
    total_imports := total_imports,
    countries := country_sorted,
    naics := naics_list }

/-- `GET /api/products/{hs6}`: the `.get(hs6)` lookup followed by the
`if not trade:` truthiness guard of the source; no exception escapes. -/
def get_product_detail (store : DataStore) (hs6 : String) : DetailResponse :=
  match dlookup store.trade_deficit hs6 with
  | none => DetailResponse.err "Product not found"
  | some trade =>
    if trade.pyTruthy = false then DetailResponse.err "Product not found"
    else DetailResponse.ok (product_detail_body store hs6 trade)

/-- One element of the `/api/critical` response list. -/
structure CriticalItem where
  hs6 : String
  description : String
  china_deficit : Int
  defense_score : Int
  criticality : ℚ
deriving DecidableEq, Repr

/-- `/api/critical` success payload. -/
structure CriticalResponse where
  products : List CriticalItem
  total : Nat
deriving DecidableEq, Repr

/-- `GET /api/critical?min_china_deficit=&min_defense_score=`.
`max(values) or 1`: Python's `max` raises `ValueError` on an empty
sequence (modelled by `Except.error`); the `or 1` fallback applies only
when the computed maximum is the falsy value `0`. -/
def get_critical_matrix (store : DataStore)
    (min_china_deficit min_defense_score : Int) :
    Except String CriticalResponse :=
  let critical := store.china_index.filterMap (fun p =>
    let hs6 := p.1
    let china_deficit := dictGet store.china_index hs6 0
    let defense_score := ((dlookup store.defense_index hs6).map
      (fun i => i.score)).getD 0
    if china_deficit ≥ min_china_deficit ∧ defense_score ≥ min_defense_score
    then some (CriticalItem.mk hs6 (dictGet store.hs6_descriptions hs6 "")
      china_deficit defense_score 0)
    else none)
  match maxList (store.china_index.map (fun p => p.2)) with
  | none => Except.error "ValueError: max() arg is an empty sequence"
  | some m =>
    let max_deficit : Int := if m = 0 then 1 else m
    let scored := critical.map (fun it =>
      { it with criticality :=
          ((it.china_deficit : ℚ) / (max_deficit : ℚ)
            + (it.defense_score : ℚ) / 10) / 2 })
    Except.ok { products := sortDescBy (fun x => x.criticality) scored,
                total := scored.length }

/-! ## Spec-side predicates (formalising the claims' wording) -/

/-- Claim C1's property for one record produced by the Deficit Calculator:
for every country in the union of the export/import key sets the stored
deficit equals import (default 0) minus export (default 0), and the
deficit dictionary's key set is exactly that union. -/
def deficitRecordOK (r : TradeRecord) : Bool :=
  let e := r.export_value.getD []
  let i := r.import_value.getD []
  let u := unionCountries e i
  match r.deficit with
  | none => false
  | some d =>
    u.all (fun c => decide (dlookup d c = some (dictGet i c 0 - dictGet e c 0)))
      && (keys d).all (fun c => decide (c ∈ u))
      && u.all (fun c => decide (c ∈ keys d))

/-- Claim C6's invariant: every score stored in the defense index is an
integer in `[0, 10]`. -/
def scoresInRange (results : Dict DefenseEntry) : Bool :=
  results.all (fun p => decide (0 ≤ p.2.score ∧ p.2.score ≤ 10))

/-- Claim C4's property for one data row against the parsed mapping: a row
whose value is JSON `null` (Python `None`) or the literal string `"null"`
contributes the value zero for its country — the mapping either omits the
country (which reads as `0` under the `.get(country, 0)` convention used
by every consumer) or stores an explicit `0`. -/
def nullishRowOK (m : Dict Int) (row : ApiRow) : Bool :=
  match row.country, row.value with
  | some c, none =>
    decide (dictGet m c 0 = 0 ∧ (dlookup m c = none ∨ dlookup m c = some 0))
  | some c, some v =>
    if v = "null" then
      decide (dictGet m c 0 = 0 ∧ (dlookup m c = none ∨ dlookup m c = some 0))
    else true
  | none, _ => true

/-- The country key a data row writes to, if its row passes the
truthiness/`TOTAL FOR ALL COUNTRIES` filter of `fetch_hs6_data`. -/
def rowKey (row : ApiRow) : Option String :=
  match row.country, row.value with
  | some c, some v =>
    if c ≠ "" ∧ v ≠ "" ∧ c ≠ "TOTAL FOR ALL COUNTRIES" then some c else none
  | _, _ => none

/-! ## Helper lemmas -/

theorem dlookup_dictInsert_self {α : Type} (d : Dict α) (k : String) (v : α) :
    dlookup (dictInsert d k v) k = some v := by
  induction d with
  | nil => simp [dictInsert, dlookup]
  | cons p t ih =>
    obtain ⟨k', v'⟩ := p
    by_cases h : k' = k
    · simp [dictInsert, h, dlookup]
    · simp [dictInsert, h, dlookup, ih]

theorem dlookup_dictInsert_ne {α : Type} (d : Dict α) (k c : String) (v : α)
    (h : c ≠ k) : dlookup (dictInsert d k v) c = dlookup d c := by
  have hk' : k ≠ c := Ne.symm h
  induction d with
  | nil => simp [dictInsert, dlookup, hk']
  | cons p t ih =>
    obtain ⟨k', v'⟩ := p
    by_cases hk : k' = k
    · subst hk
      simp [dictInsert, dlookup, hk']
    · by_cases hc : k' = c <;> simp [dictInsert, hk, dlookup, hc, ih, h]

theorem dlookup_dictRemove_self {α : Type} (d : Dict α) (k : String) :
    dlookup (dictRemove d k) k = none := by
  induction d with
  | nil => simp [dictRemove, dlookup]
  | cons p t ih =>
    obtain ⟨k', v'⟩ := p
    by_cases h : k' = k
    · simpa [dictRemove, h] using ih
    · simpa [dictRemove, List.filter_cons, h, dlookup] using ih

theorem dlookup_dictRemove_ne {α : Type} (d : Dict α) (k c : String)
    (h : c ≠ k) : dlookup (dictRemove d k) c = dlookup d c := by
  have hk' : k ≠ c := Ne.symm h
  induction d with
  | nil => simp [dictRemove, dlookup]
  | cons p t ih =>
    obtain ⟨k', v'⟩ := p
    by_cases hk : k' = k
    · subst hk
      simpa [dictRemove, List.filter_cons, dlookup, hk'] using ih
    · by_cases hc : k' = c <;>
        simp_all [dictRemove, List.filter_cons, hk, dlookup, hc]

theorem mem_dictInsert {α : Type} {d : Dict α} {k : String} {v : α}
    {x : String × α} (hx : x ∈ dictInsert d k v) : x ∈ d ∨ x = (k, v) := by
  induction d with
  | nil => simpa [dictInsert] using hx
  | cons p t ih =>
    obtain ⟨k', v'⟩ := p
    by_cases h : k' = k
    · subst h
      rw [dictInsert, if_pos rfl] at hx
      rcases List.mem_cons.1 hx with hx | hx
      · exact Or.inr hx
      · exact Or.inl (List.mem_cons_of_mem _ hx)
    · rw [dictInsert, if_neg h] at hx
      rcases List.mem_cons.1 hx with hx | hx
      · exact Or.inl (by simp [hx])
      · rcases ih hx with h' | h'
        · exact Or.inl (List.mem_cons_of_mem _ h')
        · exact Or.inr h'

theorem mem_keys_dictInsert {α : Type} {d : Dict α} {k : String} {v : α}
    {c : String} (hc : c ∈ keys (dictInsert d k v)) : c = k ∨ c ∈ keys d := by
  simp only [keys, List.mem_map] at hc
  obtain ⟨x, hx, hxc⟩ := hc
  rcases mem_dictInsert hx with h | h
  · exact Or.inr (by simpa [keys, ← hxc] using List.mem_map_of_mem Prod.fst h)
  · subst h; exact Or.inl hxc.symm

theorem wfDict_dictInsert {α : Type} {d : Dict α} (k : String) (v : α)
    (hd : wfDict d) : wfDict (dictInsert d k v) := by
  induction d with
  | nil => simp [wfDict, dictInsert, keys]
  | cons p t ih =>
    obtain ⟨k', v'⟩ := p
    simp only [wfDict, keys, List.map_cons, List.nodup_cons] at hd
    by_cases h : k' = k
    · subst h
      simpa [wfDict, dictInsert, keys, List.nodup_cons] using hd
    · have ht := ih hd.2
      simp only [wfDict, dictInsert, if_neg h, keys, List.map_cons, List.nodup_cons]
      refine ⟨fun hc => ?_, ht⟩
      rcases mem_keys_dictInsert hc with h' | h'
      · exact h h'
      · exact hd.1 (by simpa [keys] using h')

theorem wfDict_dictRemove {α : Type} {d : Dict α} (k : String)
    (hd : wfDict d) : wfDict (dictRemove d k) := by
  have hsub : List.Sublist (keys (dictRemove d k)) (keys d) :=
    List.Sublist.map Prod.fst (List.filter_sublist d)
  exact List.Nodup.sublist hsub hd

theorem dlookup_of_mem_wf {α : Type} {d : Dict α} {k : String} {v : α}
    (hd : wfDict d) (hm : (k, v) ∈ d) : dlookup d k = some v := by
  induction d with
  | nil => simp at hm
  | cons p t ih =>
    obtain ⟨k', v'⟩ := p
    simp only [wfDict, keys, List.map_cons, List.nodup_cons] at hd
    rcases List.mem_cons.1 hm with hm | hm
    · injection hm with h1 h2
      subst h1; subst h2
      simp [dlookup]
    · have hk : k' ≠ k := by
        intro h
        exact hd.1 (h ▸ (by simpa [keys] using List.mem_map_of_mem Prod.fst hm))
      simp [dlookup, hk, ih hd.2 hm]

theorem mem_of_dlookup_eq_some {α : Type} {d : Dict α} {k : String} {v : α}
    (h : dlookup d k = some v) : (k, v) ∈ d := by
  induction d with
  | nil => simp [dlookup] at h
  | cons p t ih =>
    obtain ⟨k', v'⟩ := p
    by_cases hk : k' = k
    · subst hk
      rw [dlookup, if_pos rfl] at h
      exact List.mem_cons.2 (Or.inl (by simp [Option.some.inj h]))
    · rw [dlookup, if_neg hk] at h
      exact List.mem_cons_of_mem _ (ih h)

theorem dictInsert_eq_self {α : Type} {d : Dict α} {k : String} {v : α}
    (hd : wfDict d) (h : dlookup d k = some v) : dictInsert d k v = d := by
  induction d with
  | nil => simp [dlookup] at h
  | cons p t ih =>
    obtain ⟨k', v'⟩ := p
    simp only [wfDict, keys, List.map_cons, List.nodup_cons] at hd
    by_cases hk : k' = k
    · subst hk
      rw [dlookup, if_pos rfl] at h
      simp [dictInsert, Option.some.inj h]
    · rw [dlookup, if_neg hk] at h
      simp [dictInsert, hk, ih hd.2 h]

theorem mem_dedupFirst {l : List String} {a : String} :
    a ∈ dedupFirst l ↔ a ∈ l := by
  induction l with
  | nil => simp [dedupFirst]
  | cons x t ih =>
    by_cases h : a = x
    · simp [dedupFirst, h]
    · simp [dedupFirst, h, List.mem_filter, ih]

theorem nodup_dedupFirst (l : List String) : (dedupFirst l).Nodup := by
  induction l with
  | nil => simp [dedupFirst]
  | cons x t ih =>
    simp only [dedupFirst, List.nodup_cons]
    exact ⟨fun hx => by simpa using (List.mem_filter.1 hx).2,
      List.Nodup.filter _ ih⟩

theorem pySlice_eq_take {α : Type} (l : List α) (n : Int) :
    ∃ k : Nat, pySlice l n = l.take k := by
  unfold pySlice
  by_cases h : 0 ≤ n
  · exact ⟨n.toNat, by simp [h]⟩
  · exact ⟨l.length - (-n).toNat, by simp [h]⟩

theorem mem_insertDesc {α β : Type} [LinearOrder β] {key : α → β} {x a : α}
    {l : List α} : a ∈ insertDesc key x l ↔ a = x ∨ a ∈ l := by
  induction l with
  | nil => simp [insertDesc]
  | cons y ys ih =>
    by_cases h : key y ≤ key x
    · simp [insertDesc, h]
    · simp only [insertDesc, if_neg h, List.mem_cons, ih]
      tauto

theorem mem_sortDescBy {α β : Type} [LinearOrder β] {key : α → β} {a : α}
    {l : List α} : a ∈ sortDescBy key l ↔ a ∈ l := by
  induction l with
  | nil => simp [sortDescBy]
  | cons x t ih =>
    simp only [sortDescBy, List.foldr_cons, mem_insertDesc, List.mem_cons]
    rw [show t.foldr (insertDesc key) [] = sortDescBy key t from rfl, ih]

theorem isSortedDescOn_cons {α β : Type} [LinearOrder β] {key : α → β}
    {a : α} {l : List α} (hl : isSortedDescOn key l = true)
    (ha : ∀ b ∈ l, key b ≤ key a) : isSortedDescOn key (a :: l) = true := by
  cases l with
  | nil => rfl
  | cons b t =>
    simp only [isSortedDescOn, Bool.and_eq_true, decide_eq_true_eq]
    exact ⟨ha b (List.mem_cons_self _ _), hl⟩

theorem isSortedDescOn_tail {α β : Type} [LinearOrder β] {key : α → β}
    {a : α} {l : List α} (h : isSortedDescOn key (a :: l) = true) :
    isSortedDescOn key l = true := by
  cases l with
  | nil => rfl
  | cons b t =>
    rw [isSortedDescOn, Bool.and_eq_true] at h
    exact h.2

theorem isSortedDescOn_head {α β : Type} [LinearOrder β] {key : α → β}
    {a : α} {l : List α} (h : isSortedDescOn key (a :: l) = true) :
    ∀ b ∈ l, key b ≤ key a := by
  induction l generalizing a with
  | nil => simp
  | cons b t ih =>
    rw [isSortedDescOn, Bool.and_eq_true, decide_eq_true_eq] at h
    intro c hc
    rcases List.mem_cons.1 hc with hc | hc
    · exact hc ▸ h.1
    · exact le_trans (ih h.2 c hc) h.1

theorem isSortedDescOn_insertDesc {α β : Type} [LinearOrder β] {key : α → β}
    (x : α) {l : List α} (hl : isSortedDescOn key l = true) :
    isSortedDescOn key (insertDesc key x l) = true := by
  induction l with
  | nil => rfl
  | cons y ys ih =>
    by_cases h : key y ≤ key x
    · rw [insertDesc, if_pos h]
      refine isSortedDescOn_cons hl ?_
      intro b hb
      rcases List.mem_cons.1 hb with hb | hb
      · exact hb ▸ h
      · exact le_trans (isSortedDescOn_head hl b hb) h
    · rw [insertDesc, if_neg h]
      have hx : key x ≤ key y := le_of_lt (lt_of_not_le h)
      refine isSortedDescOn_cons (ih (isSortedDescOn_tail hl)) ?_
      intro b hb
      rcases mem_insertDesc.1 hb with hb | hb
      · exact hb ▸ hx
      · exact isSortedDescOn_head hl b hb

theorem isSortedDescOn_sortDescBy {α β : Type} [LinearOrder β] (key : α → β)
    (l : List α) : isSortedDescOn key (sortDescBy key l) = true := by
  induction l with
  | nil => rfl
  | cons x t ih => exact isSortedDescOn_insertDesc x ih

theorem isSortedDescOn_take {α β : Type} [LinearOrder β] {key : α → β}
    {l : List α} (h : isSortedDescOn key l = true) (n : Nat) :
    isSortedDescOn key (l.take n) = true := by
  induction l generalizing n with
  | nil => simp [isSortedDescOn]
  | cons a t ih =>
    cases n with
    | zero => rfl
    | succ m =>
      rw [List.take_succ_cons]
      refine isSortedDescOn_cons (ih (isSortedDescOn_tail h) m) ?_
      intro b hb
      exact isSortedDescOn_head h b (List.mem_of_mem_take hb)

theorem foldl_fixed {α β : Type} {f : β → α → β} {a : β} {l : List α}
    (h : ∀ c ∈ l, f a c = a) : l.foldl f a = a := by
  induction l with
  | nil => rfl
  | cons c t ih =>
    rw [List.foldl_cons, h c (List.mem_cons_self _ _)]
    exact ih (fun c' hc' => h c' (List.mem_cons_of_mem _ hc'))

theorem containsSub_nil (hay : List Char) : containsSub [] hay = true := by
  cases hay <;> simp [containsSub, listStartsWith, List.isEmpty]

theorem pyInStr_empty (hay : String) : pyInStr "" hay = true := by
  simpa [pyInStr] using containsSub_nil hay.toList

theorem dlookup_map_keyed {α : Type} (f : String → α) :
    ∀ (u : List String), u.Nodup → ∀ c ∈ u,
      dlookup (u.map (fun x => (x, f x))) c = some (f c) := by
  intro u
  induction u with
  | nil => intro _ c hc; simp at hc
  | cons x t ih =>
    intro hnd c hc
    rw [List.nodup_cons] at hnd
    rcases List.mem_cons.1 hc with hc | hc
    · subst hc
      simp [dlookup]
    · have hx : x ≠ c := fun h => hnd.1 (h ▸ hc)
      simpa [dlookup, hx] using ih hnd.2 c hc

theorem keys_map_keyed {α : Type} (f : String → α) (u : List String) :
    keys (u.map (fun x => (x, f x))) = u := by
  induction u with
  | nil => rfl
  | cons x t ih =>
    show x :: keys (t.map (fun x => (x, f x))) = x :: t
    rw [ih]

theorem calcDeficitRecord_fields (r : TradeRecord) :
    calcDeficitRecord r = TradeRecord.mk r.export_value r.import_value
      (some (computeDeficit (r.export_value.getD []) (r.import_value.getD []))) := rfl

theorem calcDeficitRecord_ok (r : TradeRecord) :
    deficitRecordOK (calcDeficitRecord r) = true := by
  rw [calcDeficitRecord_fields]
  simp only [deficitRecordOK, computeDeficit, Bool.and_eq_true, List.all_eq_true]
  refine ⟨⟨fun c hc => ?_, fun c hc => ?_⟩, fun c hc => ?_⟩
  · rw [decide_eq_true_eq]
    exact dlookup_map_keyed _ _ (nodup_dedupFirst _) c hc
  · rw [decide_eq_true_eq]
    rwa [keys_map_keyed] at hc
  · rw [decide_eq_true_eq, keys_map_keyed]
    exact hc

/-- C1: for every trade record produced by the Deficit Calculator and every
country in the union of its export-country and import-country key sets, the
stored deficit equals the import value (default 0) minus the export value
(default 0), and the deficit dictionary's key set equals exactly that
union. -/
theorem calculate_deficits_correct (trade_data : Dict TradeRecord) :
    ((calculate_deficits trade_data).all (fun p => deficitRecordOK p.2)) = true := by
  rw [List.all_eq_true]
  intro p hp
  simp only [calculate_deficits, List.mem_map] at hp
  obtain ⟨q, _, rfl⟩ := hp
  exact calcDeficitRecord_ok q.2

/-- C8: the Deficit Calculator is idempotent — applying `calculate_deficits`
to its own output yields a result identical to a single application (the
recomputed deficit equals the existing one and no other field changes). -/
theorem calculate_deficits_idempotent (trade_data : Dict TradeRecord) :
    calculate_deficits (calculate_deficits trade_data) =
      calculate_deficits trade_data := by
  simp only [calculate_deficits, List.map_map]
  exact List.map_congr_left (fun p _ => rfl)

/-- C2: the China index contains an entry for an HS6 code iff that code's
trade record has `deficit["CHINA"]` strictly greater than 0, the entry's
value equals that deficit (the index is exactly the positive-filtered
restriction of the per-record China deficits), and it is sorted descending
by deficit. -/
theorem generate_china_index_exact (trade_data : Dict TradeRecord)
    (hs6 : String) (v : Int) :
    ((hs6, v) ∈ generate_china_index trade_data ↔
      ∃ r, (hs6, r) ∈ trade_data ∧ chinaDeficitOf r = v ∧ 0 < v)
    ∧ isSortedDescOn (fun p => p.2) (generate_china_index trade_data) = true := by
  constructor
  · simp only [generate_china_index, mem_sortDescBy, List.mem_filterMap]
    constructor
    · rintro ⟨⟨a, b⟩, hab, hf⟩
      by_cases h : chinaDeficitOf b > 0
      · rw [if_pos h] at hf
        injection hf with hf
        injection hf with h1 h2
        subst h1; subst h2
        exact ⟨b, hab, rfl, h⟩
      · rw [if_neg h] at hf
        exact absurd hf (by simp)
    · rintro ⟨r, hr, hv, hpos⟩
      subst hv
      exact ⟨(hs6, r), hr, by rw [if_pos hpos]⟩
  · exact isSortedDescOn_sortDescBy _ _

/-- C9: for every HS6 code absent from the trade-deficit store, the
product-detail query returns the NotFound indicator (the error-marked
result) rather than raising an exception. -/
theorem get_product_detail_notfound (store : DataStore) (hs6 : String)
    (h : dlookup store.trade_deficit hs6 = none) :
    get_product_detail store hs6 = DetailResponse.err "Product not found" := by
  unfold get_product_detail
  rw [h]

/-- Witness for C9 at a concrete store and an absent code. -/
theorem get_product_detail_notfound_witness :
    get_product_detail
      ⟨[], [("230910", ⟨some [("MEXICO", 100)], some [("CHINA", 80)], none⟩)],
        [], [], [], [], []⟩ "999999" = DetailResponse.err "Product not found" :=
  get_product_detail_notfound _ _ (by decide)

/-- C10: the product-detail query returns the NotFound indicator not only
for absent keys but for every key whose stored trade record is falsy (a
literally empty record): such a record is indistinguishable at the API from
an absent code, and no exception is raised. -/
theorem get_product_detail_falsy (store : DataStore) (hs6 : String)
    (r : TradeRecord) (h : dlookup store.trade_deficit hs6 = some r)
    (hf : r.pyTruthy = false) :
    get_product_detail store hs6 = DetailResponse.err "Product not found"
    ∧ get_product_detail store hs6 =
        get_product_detail
          { store with trade_deficit := dictRemove store.trade_deficit hs6 }
          hs6 := by
  have h1 : get_product_detail store hs6 = DetailResponse.err "Product not found" := by
    have heq : get_product_detail store hs6 =
        (if r.pyTruthy = false then DetailResponse.err "Product not found"
         else DetailResponse.ok (product_detail_body store hs6 r)) := by
      unfold get_product_detail
      rw [h]
    rw [heq, hf]
    rfl
  refine ⟨h1, ?_⟩
  rw [h1]
  have h2 : dlookup (dictRemove store.trade_deficit hs6) hs6 = none :=
    dlookup_dictRemove_self _ _
  unfold get_product_detail
  rw [show ({ store with
      trade_deficit := dictRemove store.trade_deficit hs6 } : DataStore).trade_deficit
    = dictRemove store.trade_deficit hs6 from rfl, h2]

/-- Witness for C10 at a concrete store holding a literally empty record. -/
theorem get_product_detail_falsy_witness :
    get_product_detail ⟨[], [("111111", ⟨none, none, none⟩)], [], [], [], [], []⟩
        "111111" = DetailResponse.err "Product not found"
    ∧ get_product_detail ⟨[], [("111111", ⟨none, none, none⟩)], [], [], [], [], []⟩
        "111111" =
      get_product_detail
        { (⟨[], [("111111", ⟨none, none, none⟩)], [], [], [], [], []⟩ : DataStore) with
          trade_deficit :=
            dictRemove [("111111", ⟨none, none, none⟩)] "111111" } "111111" :=
  get_product_detail_falsy _ "111111" ⟨none, none, none⟩ (by decide) rfl

/-- C3 counterexample: with an empty China index the critical-matrix query
does not return a result — `max()` over the empty value sequence raises
`ValueError` before the `or 1` fallback can apply, for example at
thresholds `(0, 0)`. -/
theorem get_critical_matrix_empty_raises :
    get_critical_matrix ⟨[], [], [], [], [], [], []⟩ 0 0 =
      Except.error "ValueError: max() arg is an empty sequence" := rfl

/-- C3 (amended): when the China index is empty, the critical-matrix query
fails with the `max()`-of-empty-sequence `ValueError` for every pair of
threshold arguments; the fallback denominator of 1 applies only to a falsy
(zero) maximum of a non-empty index, not to emptiness. -/
theorem get_critical_matrix_empty_index_error (store : DataStore)
    (min_china_deficit min_defense_score : Int)
    (h : store.china_index = []) :
    get_critical_matrix store min_china_deficit min_defense_score =
      Except.error "ValueError: max() arg is an empty sequence" := by
  unfold get_critical_matrix
  rw [h]
  rfl

theorem pyLower_empty : pyLower "" = "" := rfl

theorem productsKeep_sound {s hs6 desc : String}
    (h : productsKeep (some s) hs6 desc = true) :
    (pyInStr (pyLower s) (pyLower hs6) || pyInStr (pyLower s) (pyLower desc))
      = true := by
  by_cases hs : s = ""
  · subst hs
    rw [pyLower_empty, pyInStr_empty]
    rfl
  · have ht : pyTruthySearch (some s) = true := by
      simp [pyTruthySearch, hs]
    rw [productsKeep, ht] at h
    simpa using h

theorem productsRow_props (store : DataStore) (s : String)
    (q : String × TradeRecord) (p : ProductSummary)
    (hrow : productsRow store (some s) q = some p) :
    (pyInStr (pyLower s) (pyLower p.hs6) || pyInStr (pyLower s) (pyLower p.description))
        = true
    ∧ p.china_deficit = dictGet store.china_index p.hs6 0 := by
  simp only [productsRow] at hrow
  split at hrow
  case isTrue hkeep =>
    injection hrow with hrow
    subst hrow
    exact ⟨productsKeep_sound hkeep, rfl⟩
  case isFalse => exact absurd hrow (by simp)

/-- C5: for every search string and limit the product listing returns only
products whose HS6 code or description case-insensitively contains the
search string; the result is sorted descending by China deficit with codes
absent from the China index carrying deficit 0 (intermixed, no separate
bucket); the reported total counts the whole filtered list; and truncation
to the caller-supplied limit (the route's default is 1000) is a prefix of
the sorted filtered list, i.e. it happens after filtering and sorting. -/
theorem get_products_spec (store : DataStore) (s : String) (limit : Int) :
    ((get_products store (some s) limit).products.all (fun p =>
        pyInStr (pyLower s) (pyLower p.hs6) || pyInStr (pyLower s) (pyLower p.description))
      = true)
    ∧ isSortedDescOn (fun p => p.china_deficit)
        (get_products store (some s) limit).products = true
    ∧ ((get_products store (some s) limit).products.all (fun p =>
        decide (p.china_deficit = dictGet store.china_index p.hs6 0)) = true)
    ∧ (get_products store (some s) limit).total
        = (filteredProducts store (some s)).length
    ∧ ∃ k : Nat, (get_products store (some s) limit).products =
        (sortDescBy (fun p => p.china_deficit)
          (filteredProducts store (some s))).take k := by
  obtain ⟨k, hk⟩ := pySlice_eq_take
    (sortDescBy (fun p : ProductSummary => p.china_deficit)
      (filteredProducts store (some s))) limit
  have hprod : (get_products store (some s) limit).products =
      (sortDescBy (fun p : ProductSummary => p.china_deficit)
        (filteredProducts store (some s))).take k := hk
  have hmem : ∀ p ∈ (get_products store (some s) limit).products,
      p ∈ filteredProducts store (some s) := by
    intro p hp
    rw [hprod] at hp
    exact mem_sortDescBy.1 (List.mem_of_mem_take hp)
  refine ⟨?_, ?_, ?_, rfl, ⟨k, hprod⟩⟩
  · rw [List.all_eq_true]
    intro p hp
    obtain ⟨q, hq, hrowq⟩ := List.mem_filterMap.1 (hmem p hp)
    exact (productsRow_props store s q p hrowq).1
  · rw [hprod]
    exact isSortedDescOn_take (isSortedDescOn_sortDescBy _ _) k
  · rw [List.all_eq_true]
    intro p hp
    rw [decide_eq_true_eq]
    obtain ⟨q, hq, hrowq⟩ := List.mem_filterMap.1 (hmem p hp)
    exact (productsRow_props store s q p hrowq).2

/-- Witness for the amended C3 at a concrete store whose China index is
empty but whose other artifacts are populated. -/
theorem get_critical_matrix_empty_index_error_witness :
    get_critical_matrix
      ⟨[], [("331110", ⟨some [("CHINA", 3)], some [], none⟩)], [],
        [("331110", ⟨"331110", "steel mill products", 9, "supply chain"⟩)],
        [], [], []⟩ (-5) 2 =
      Except.error "ValueError: max() arg is an empty sequence" :=
  get_critical_matrix_empty_index_error _ (-5) 2 rfl

theorem validateScore_ok_range {resp : Except String ModelOutput}
    {out : ModelOutput} (h : resp.bind validateScore = Except.ok out) :
    0 ≤ out.score ∧ out.score ≤ 10 := by
  cases resp with
  | error e => exact absurd h (by simp [Except.bind])
  | ok m =>
    rw [show (Except.ok m : Except String ModelOutput).bind validateScore
      = validateScore m from rfl, validateScore] at h
    split at h
    · next hrange =>
      injection h with h
      subst h
      exact hrange
    · exact absurd h (by simp)

theorem scoresInRange_dictInsert {results : Dict DefenseEntry} {k : String}
    {entry : DefenseEntry} (hres : scoresInRange results = true)
    (hent : 0 ≤ entry.score ∧ entry.score ≤ 10) :
    scoresInRange (dictInsert results k entry) = true := by
  rw [scoresInRange, List.all_eq_true]
  intro x hx
  rw [decide_eq_true_eq]
  rcases mem_dictInsert hx with hx | hx
  · rw [scoresInRange, List.all_eq_true] at hres
    exact of_decide_eq_true (hres x hx)
  · rw [hx]
    exact hent

theorem scoresInRange_scorerStep (model : String → Except String ModelOutput)
    (acc : Dict DefenseEntry × Dict ScoreErr) (item : String × String)
    (hres : scoresInRange acc.1 = true) :
    scoresInRange (scorerStep model acc item).1 = true := by
  rw [scorerStep, score_defense_criticality]
  cases hbind : (model item.1).bind validateScore with
  | ok out =>
    exact scoresInRange_dictInsert hres (validateScore_ok_range hbind)
  | error e => exact hres

theorem scoresInRange_foldl (model : String → Except String ModelOutput)
    (items : List (String × String)) :
    ∀ acc : Dict DefenseEntry × Dict ScoreErr, scoresInRange acc.1 = true →
      scoresInRange (items.foldl (scorerStep model) acc).1 = true := by
  induction items with
  | nil => intro acc h; exact h
  | cons item t ih =>
    intro acc h
    rw [List.foldl_cons]
    exact ih _ (scoresInRange_scorerStep model acc item h)

/-- C6: every score the Criticality Scorer stores in the defense index is an
integer in `[0, 10]`; a model output whose score falls outside that range
fails schema validation and is recorded as an error entry for its code with
no score stored — never clamped.  The second and third conjuncts exhibit
the out-of-range behaviour of one call and of one accumulator merge. -/
theorem defense_scores_in_range (model : String → Except String ModelOutput)
    (all_codes : Dict String) (results : Dict DefenseEntry)
    (errors : Dict ScoreErr) (hs6 desc : String) (raw : ModelOutput)
    (hres : scoresInRange results = true)
    (hraw : raw.score < 0 ∨ 10 < raw.score) :
    scoresInRange (runScorer model all_codes results errors).1 = true
    ∧ score_defense_criticality hs6 desc (Except.ok raw) =
        (hs6, none, some "ValidationError: score must be in the range 0..10")
    ∧ scorerStep (fun _ => Except.ok raw) (results, errors) (hs6, desc) =
        (results, dictInsert errors hs6
          ⟨hs6, desc, "ValidationError: score must be in the range 0..10"⟩) := by
  have hval : (Except.ok raw : Except String ModelOutput).bind validateScore
      = Except.error "ValidationError: score must be in the range 0..10" := by
    rw [show (Except.ok raw : Except String ModelOutput).bind validateScore
      = validateScore raw from rfl, validateScore, if_neg]
    rintro ⟨h0, h10⟩
    rcases hraw with h | h
    · exact absurd h0 (not_le.2 h)
    · exact absurd h10 (not_le.2 h)
  have hscore : score_defense_criticality hs6 desc (Except.ok raw) =
      (hs6, none, some "ValidationError: score must be in the range 0..10") := by
    rw [score_defense_criticality, hval]
  refine ⟨?_, hscore, ?_⟩
  · exact scoresInRange_foldl model _ (results, errors) hres
  · rw [scorerStep, hscore]
    rfl

/-- Witness for C6: a populated store, and a model returning the
out-of-range score 11 for code `"730510"`. -/
theorem defense_scores_in_range_witness :
    scoresInRange (runScorer (fun _ => Except.ok ⟨11, "too enthusiastic"⟩)
        [("730510", "steel pipe")]
        [("847150", ⟨"847150", "computer parts", 7, "dual use"⟩)] []).1 = true
    ∧ score_defense_criticality "730510" "steel pipe" (Except.ok ⟨11, "too enthusiastic"⟩) =
        ("730510", none, some "ValidationError: score must be in the range 0..10")
    ∧ scorerStep (fun _ => Except.ok ⟨11, "too enthusiastic"⟩)
        ([("847150", ⟨"847150", "computer parts", 7, "dual use"⟩)], [])
        ("730510", "steel pipe") =
        ([("847150", ⟨"847150", "computer parts", 7, "dual use"⟩)],
          dictInsert [] "730510"
            ⟨"730510", "steel pipe", "ValidationError: score must be in the range 0..10"⟩) :=
  defense_scores_in_range (fun _ => Except.ok ⟨11, "too enthusiastic"⟩)
    [("730510", "steel pipe")]
    [("847150", ⟨"847150", "computer parts", 7, "dual use"⟩)] []
    "730510" "steel pipe" ⟨11, "too enthusiastic"⟩ (by decide) (by decide)

theorem parseRowsAux_error (rows : List ApiRow) (e : String) :
    parseRowsAux rows (Except.error e) = Except.error e := by
  cases rows <;> rfl

theorem parseRowsAux_append (l1 l2 : List ApiRow)
    (acc : Except String (Dict Int)) :
    parseRowsAux (l1 ++ l2) acc = parseRowsAux l2 (parseRowsAux l1 acc) := by
  induction l1 generalizing acc with
  | nil =>
    cases acc <;> rfl
  | cons row t ih =>
    cases acc with
    | error e => rw [parseRowsAux_error, parseRowsAux_error, parseRowsAux_error]
    | ok d =>
      rw [List.cons_append,
        show parseRowsAux (row :: (t ++ l2)) (Except.ok d)
          = parseRowsAux (t ++ l2) (parseRow d row) from rfl,
        show parseRowsAux (row :: t) (Except.ok d)
          = parseRowsAux t (parseRow d row) from rfl]
      exact ih (parseRow d row)

theorem parseRow_untouched {d d' : Dict Int} {row : ApiRow} {c : String}
    (hkey : rowKey row ≠ some c) (hok : parseRow d row = Except.ok d') :
    dlookup d' c = dlookup d c := by
  unfold parseRow at hok
  unfold rowKey at hkey
  cases hc : row.country with
  | none =>
    rw [hc] at hok
    injection hok with hok
    rw [← hok]
  | some country =>
    cases hv : row.value with
    | none =>
      rw [hc, hv] at hok
      injection hok with hok
      rw [← hok]
    | some v =>
      rw [hc, hv] at hok hkey
      dsimp only at hok hkey
      by_cases hguard : country ≠ "" ∧ v ≠ "" ∧ country ≠ "TOTAL FOR ALL COUNTRIES"
      · rw [if_pos hguard] at hok hkey
        have hcc : country ≠ c := fun h => hkey (h ▸ rfl)
        by_cases hnull : v = "null"
        · rw [if_pos hnull] at hok
          injection hok with hok
          rw [← hok]
          exact dlookup_dictInsert_ne d country c 0 (Ne.symm hcc)
        · rw [if_neg hnull] at hok
          cases hint : v.toInt? with
          | some n =>
            rw [hint] at hok
            injection hok with hok
            rw [← hok]
            exact dlookup_dictInsert_ne d country c n (Ne.symm hcc)
          | none =>
            rw [hint] at hok
            exact absurd hok (by simp)
      · rw [if_neg hguard] at hok
        injection hok with hok
        rw [← hok]

theorem parseRowsAux_untouched {rows : List ApiRow} {d m : Dict Int}
    {c : String} (hok : parseRowsAux rows (Except.ok d) = Except.ok m)
    (hall : ∀ row ∈ rows, rowKey row ≠ some c) :
    dlookup m c = dlookup d c := by
  induction rows generalizing d with
  | nil =>
    injection hok with hok
    rw [hok]
  | cons row t ih =>
    rw [show parseRowsAux (row :: t) (Except.ok d)
      = parseRowsAux t (parseRow d row) from rfl] at hok
    cases hrow : parseRow d row with
    | error e =>
      rw [hrow, parseRowsAux_error] at hok
      exact absurd hok (by simp)
    | ok d' =>
      rw [hrow] at hok
      rw [ih hok (fun r hr => hall r (List.mem_cons_of_mem _ hr))]
      exact parseRow_untouched (hall row (List.mem_cons_self _ _)) hrow

theorem rowKey_ne_total (row : ApiRow) :
    rowKey row ≠ some "TOTAL FOR ALL COUNTRIES" := by
  unfold rowKey
  cases row.country with
  | none => simp
  | some country =>
    cases row.value with
    | none => simp
    | some v =>
      dsimp only
      by_cases hguard : country ≠ "" ∧ v ≠ "" ∧ country ≠ "TOTAL FOR ALL COUNTRIES"
      · rw [if_pos hguard]
        intro h
        exact hguard.2.2 (Option.some.inj h)
      · rw [if_neg hguard]
        simp

theorem rowKey_country {row : ApiRow} {c : String}
    (h : rowKey row = some c) : row.country = some c := by
  unfold rowKey at h
  cases hc : row.country with
  | none => rw [hc] at h; exact absurd h (by simp)
  | some country =>
    cases hv : row.value with
    | none => rw [hc, hv] at h; exact absurd h (by simp)
    | some v =>
      rw [hc, hv] at h
      dsimp only at h
      by_cases hguard : country ≠ "" ∧ v ≠ "" ∧ country ≠ "TOTAL FOR ALL COUNTRIES"
      · rw [if_pos hguard] at h
        rw [Option.some.inj h]
      · rw [if_neg hguard] at h
        exact absurd h (by simp)

theorem rowKey_ne_empty (row : ApiRow) : rowKey row ≠ some "" := by
  unfold rowKey
  cases row.country with
  | none => simp
  | some country =>
    cases row.value with
    | none => simp
    | some v =>
      dsimp only
      by_cases hguard : country ≠ "" ∧ v ≠ "" ∧ country ≠ "TOTAL FOR ALL COUNTRIES"
      · rw [if_pos hguard]
        intro h
        exact hguard.1 (Option.some.inj h)
      · rw [if_neg hguard]
        simp

theorem country_not_mem_sides {l1 l2 : List ApiRow} {row : ApiRow} {c : String}
    (hc : row.country = some c)
    (hnd : ((l1 ++ row :: l2).filterMap (fun r => r.country)).Nodup) :
    (∀ row' ∈ l1, row'.country ≠ some c) ∧
      (∀ row' ∈ l2, row'.country ≠ some c) := by
  rw [List.filterMap_append] at hnd
  rw [show (row :: l2).filterMap (fun r => r.country)
      = c :: l2.filterMap (fun r => r.country) by
    simp [List.filterMap_cons, hc]] at hnd
  rw [List.nodup_append] at hnd
  obtain ⟨h1, h2, hdisj⟩ := hnd
  refine ⟨fun row' hr' hcc => ?_, fun row' hr' hcc => ?_⟩
  · exact hdisj (List.mem_filterMap.2 ⟨row', hr', hcc⟩) (List.mem_cons_self _ _)
  · rw [List.nodup_cons] at h2
    exact h2.1 (List.mem_filterMap.2 ⟨row', hr', hcc⟩)

theorem tail_eq_nil_of_short {l : List ApiRow} (h : ¬ 1 < l.length) :
    l.tail = [] := by
  cases l with
  | nil => rfl
  | cons a t =>
    cases t with
    | nil => rfl
    | cons b u =>
      exfalso
      apply h
      simp [List.length_cons]

/-- C4: for every API response payload the per-code parse step accepts, the
resulting per-country mapping excludes the synthetic
`"TOTAL FOR ALL COUNTRIES"` row, and every data row whose value is missing
(JSON `null`) or the literal string `"null"` contributes the value zero for
its country: the mapping stores `0` for it or omits it entirely, and every
consumer reads it back as `0` through `.get(country, 0)`.  The countries of
the data rows are assumed pairwise distinct, as the Census API returns one
row per country.  The same parse step is used for the export and the import
request of `fetch_hs6_data`. -/
theorem parsePayload_total_and_nullish (payload : List ApiRow) (m : Dict Int)
    (hok : parsePayload payload = Except.ok m)
    (hnd : (payload.tail.filterMap (fun r => r.country)).Nodup) :
    dlookup m "TOTAL FOR ALL COUNTRIES" = none
    ∧ payload.tail.all (nullishRowOK m) = true := by
  unfold parsePayload at hok
  by_cases hlen : 1 < payload.length
  swap
  · rw [if_neg hlen] at hok
    injection hok with hok
    subst hok
    rw [tail_eq_nil_of_short hlen]
    exact ⟨rfl, rfl⟩
  rw [if_pos hlen] at hok
  have htotal : dlookup m "TOTAL FOR ALL COUNTRIES" = none :=
    parseRowsAux_untouched hok (fun row _ => rowKey_ne_total row)
  refine ⟨htotal, ?_⟩
  rw [List.all_eq_true]
  intro row hrow
  unfold nullishRowOK
  cases hc : row.country with
  | none => rfl
  | some c =>
    obtain ⟨l1, l2, heq⟩ := List.append_of_mem hrow
    rw [heq] at hok hnd
    obtain ⟨hside1, hside2⟩ := country_not_mem_sides hc hnd
    cases hv : row.value with
    | none =>
      dsimp only
      rw [decide_eq_true_eq]
      have hrk : rowKey row = none := by
        unfold rowKey
        rw [hc, hv]
      have hall : ∀ row' ∈ l1 ++ row :: l2, rowKey row' ≠ some c := by
        intro row' hr'
        rcases List.mem_append.1 hr' with hr' | hr'
        · exact fun hk => hside1 row' hr' (rowKey_country hk)
        · rcases List.mem_cons.1 hr' with hr' | hr'
          · subst hr'
            rw [hrk]
            simp
          · exact fun hk => hside2 row' hr' (rowKey_country hk)
      have hnone : dlookup m c = none := parseRowsAux_untouched hok hall
      exact ⟨by rw [dictGet, hnone]; rfl, Or.inl hnone⟩
    | some v =>
      dsimp only
      by_cases hvn : v = "null"
      swap
      · rw [if_neg hvn]
      rw [if_pos hvn]
      subst hvn
      rw [decide_eq_true_eq]
      by_cases hguard : c ≠ "" ∧ ("null" : String) ≠ "" ∧
          c ≠ "TOTAL FOR ALL COUNTRIES"
      · -- the row passes the filter and stores an explicit 0
        rw [parseRowsAux_append] at hok
        cases hmid : parseRowsAux l1 (Except.ok []) with
        | error e =>
          rw [hmid, parseRowsAux_error] at hok
          exact absurd hok (by simp)
        | ok d1 =>
          rw [hmid,
            show parseRowsAux (row :: l2) (Except.ok d1)
              = parseRowsAux l2 (parseRow d1 row) from rfl] at hok
          have hstep : parseRow d1 row = Except.ok (dictInsert d1 c 0) := by
            unfold parseRow
            rw [hc, hv]
            dsimp only
            rw [if_pos hguard, if_pos rfl]
          rw [hstep] at hok
          have hl2 : ∀ row' ∈ l2, rowKey row' ≠ some c :=
            fun row' hr' hk => hside2 row' hr' (rowKey_country hk)
          have hzero : dlookup m c = some 0 := by
            rw [parseRowsAux_untouched hok hl2]
            exact dlookup_dictInsert_self d1 c 0
          exact ⟨by rw [dictGet, hzero]; rfl, Or.inr hzero⟩
      · -- the row fails the truthiness/TOTAL filter: nothing is stored
        have hcases : c = "" ∨ c = "TOTAL FOR ALL COUNTRIES" := by
          by_contra hcon
          push_neg at hcon
          exact hguard ⟨hcon.1, by decide, hcon.2⟩
        have hall : ∀ row' ∈ l1 ++ row :: l2, rowKey row' ≠ some c := by
          intro row' _
          rcases hcases with hcc | hcc
          · rw [hcc]
            exact rowKey_ne_empty row'
          · rw [hcc]
            exact rowKey_ne_total row'
        have hnone : dlookup m c = none := parseRowsAux_untouched hok hall
        exact ⟨by rw [dictGet, hnone]; rfl, Or.inl hnone⟩

/-- Witness for C4 on a concrete payload: a header row, the synthetic
`TOTAL FOR ALL COUNTRIES` row, a `"null"`-string row for CHINA and a
JSON-null row for JAPAN.  The parse yields `{"CHINA": 0}`. -/
theorem parsePayload_total_and_nullish_witness :
    dlookup ([("CHINA", 0)] : Dict Int) "TOTAL FOR ALL COUNTRIES" = none
    ∧ ([ApiRow.mk "CTY_CODE" (some "CTY_NAME") (some "ALL_VAL_YR"),
        ApiRow.mk "-" (some "TOTAL FOR ALL COUNTRIES") (some "500"),
        ApiRow.mk "5700" (some "CHINA") (some "null"),
        ApiRow.mk "5880" (some "JAPAN") none] : List ApiRow).tail.all
          (nullishRowOK ([("CHINA", 0)] : Dict Int)) = true :=
  parsePayload_total_and_nullish
    [ApiRow.mk "CTY_CODE" (some "CTY_NAME") (some "ALL_VAL_YR"),
      ApiRow.mk "-" (some "TOTAL FOR ALL COUNTRIES") (some "500"),
      ApiRow.mk "5700" (some "CHINA") (some "null"),
      ApiRow.mk "5880" (some "JAPAN") none]
    ([("CHINA", 0)] : Dict Int) rfl (by decide)

theorem fetchStep_res_ne (g : String → Except String FetchVal)
    (acc : Dict FetchVal × Dict FetchErr) {c d : String} (h : c ≠ d) :
    dlookup (fetchStep g acc d).1 c = dlookup acc.1 c := by
  cases hgd : g d with
  | ok v =>
    rw [show fetchStep g acc d = (dictInsert acc.1 d v, dictRemove acc.2 d) by
      rw [fetchStep, hgd]]
    exact dlookup_dictInsert_ne acc.1 d c v h
  | error e =>
    rw [show fetchStep g acc d = (acc.1, dictInsert acc.2 d ⟨d, e⟩) by
      rw [fetchStep, hgd]]

theorem fetchStep_err_ne (g : String → Except String FetchVal)
    (acc : Dict FetchVal × Dict FetchErr) {c d : String} (h : c ≠ d) :
    dlookup (fetchStep g acc d).2 c = dlookup acc.2 c := by
  cases hgd : g d with
  | ok v =>
    rw [show fetchStep g acc d = (dictInsert acc.1 d v, dictRemove acc.2 d) by
      rw [fetchStep, hgd]]
    exact dlookup_dictRemove_ne acc.2 d c h
  | error e =>
    rw [show fetchStep g acc d = (acc.1, dictInsert acc.2 d ⟨d, e⟩) by
      rw [fetchStep, hgd]]
    exact dlookup_dictInsert_ne acc.2 d c ⟨d, e⟩ h

theorem runFetchLoop_res_untouched (g : String → Except String FetchVal)
    {todo : List String} {acc : Dict FetchVal × Dict FetchErr} {c : String}
    (hc : c ∉ todo) :
    dlookup (runFetchLoop g acc todo).1 c = dlookup acc.1 c := by
  induction todo generalizing acc with
  | nil => rfl
  | cons d t ih =>
    have hcd : c ≠ d := fun h => hc (h ▸ List.mem_cons_self _ _)
    have hct : c ∉ t := fun h => hc (List.mem_cons_of_mem _ h)
    rw [show runFetchLoop g acc (d :: t)
      = runFetchLoop g (fetchStep g acc d) t from rfl, ih hct]
    exact fetchStep_res_ne g acc hcd

theorem runFetchLoop_err_untouched (g : String → Except String FetchVal)
    {todo : List String} {acc : Dict FetchVal × Dict FetchErr} {c : String}
    (hc : c ∉ todo) :
    dlookup (runFetchLoop g acc todo).2 c = dlookup acc.2 c := by
  induction todo generalizing acc with
  | nil => rfl
  | cons d t ih =>
    have hcd : c ≠ d := fun h => hc (h ▸ List.mem_cons_self _ _)
    have hct : c ∉ t := fun h => hc (List.mem_cons_of_mem _ h)
    rw [show runFetchLoop g acc (d :: t)
      = runFetchLoop g (fetchStep g acc d) t from rfl, ih hct]
    exact fetchStep_err_ne g acc hcd

theorem runFetchLoop_res_ok (g : String → Except String FetchVal)
    {todo : List String} {acc : Dict FetchVal × Dict FetchErr} {c : String}
    {v : FetchVal} (hnd : todo.Nodup) (hc : c ∈ todo)
    (hgc : g c = Except.ok v) :
    dlookup (runFetchLoop g acc todo).1 c = some v := by
  induction todo generalizing acc with
  | nil => simp at hc
  | cons d t ih =>
    rw [List.nodup_cons] at hnd
    rw [show runFetchLoop g acc (d :: t)
      = runFetchLoop g (fetchStep g acc d) t from rfl]
    rcases List.mem_cons.1 hc with hc | hc
    · subst hc
      rw [runFetchLoop_res_untouched g hnd.1,
        show fetchStep g acc c = (dictInsert acc.1 c v, dictRemove acc.2 c) by
          rw [fetchStep, hgc]]
      exact dlookup_dictInsert_self acc.1 c v
    · exact ih hnd.2 hc

theorem runFetchLoop_err_of_fail (g : String → Except String FetchVal)
    {todo : List String} (acc : Dict FetchVal × Dict FetchErr) {c : String}
    {msg : String} (hnd : todo.Nodup) (hc : c ∈ todo)
    (hgc : g c = Except.error msg) :
    dlookup (runFetchLoop g acc todo).2 c = some ⟨c, msg⟩
    ∧ dlookup (runFetchLoop g acc todo).1 c = dlookup acc.1 c := by
  induction todo generalizing acc with
  | nil => simp at hc
  | cons d t ih =>
    rw [List.nodup_cons] at hnd
    rw [show runFetchLoop g acc (d :: t)
      = runFetchLoop g (fetchStep g acc d) t from rfl]
    rcases List.mem_cons.1 hc with hc | hc
    · subst hc
      rw [runFetchLoop_err_untouched g hnd.1, runFetchLoop_res_untouched g hnd.1,
        show fetchStep g acc c = (acc.1, dictInsert acc.2 c ⟨c, msg⟩) by
          rw [fetchStep, hgc]]
      exact ⟨dlookup_dictInsert_self acc.2 c ⟨c, msg⟩, rfl⟩
    · have hcd : c ≠ d := fun h => hnd.1 (h ▸ hc)
      obtain ⟨h1, h2⟩ := ih (fetchStep g acc d) hnd.2 hc
      exact ⟨h1, by rw [h2, fetchStep_res_ne g acc hcd]⟩

theorem runFetchLoop_containsKey_mono (g : String → Except String FetchVal)
    {todo : List String} (acc : Dict FetchVal × Dict FetchErr) {c : String}
    (h : containsKey acc.1 c = true) :
    containsKey (runFetchLoop g acc todo).1 c = true := by
  induction todo generalizing acc with
  | nil => exact h
  | cons d t ih =>
    rw [show runFetchLoop g acc (d :: t)
      = runFetchLoop g (fetchStep g acc d) t from rfl]
    apply ih
    by_cases hcd : c = d
    · subst hcd
      cases hgd : g c with
      | ok v =>
        rw [show fetchStep g acc c = (dictInsert acc.1 c v, dictRemove acc.2 c) by
            rw [fetchStep, hgd], containsKey]
        rw [show (dictInsert acc.1 c v, dictRemove acc.2 c).1
          = dictInsert acc.1 c v from rfl, dlookup_dictInsert_self]
        rfl
      | error e =>
        rw [show fetchStep g acc c = (acc.1, dictInsert acc.2 c ⟨c, e⟩) by
          rw [fetchStep, hgd]]
        exact h
    · rw [containsKey, fetchStep_res_ne g acc hcd]
      exact h

theorem runFetchLoop_wf (g : String → Except String FetchVal)
    {todo : List String} (acc : Dict FetchVal × Dict FetchErr)
    (h1 : wfDict acc.1) (h2 : wfDict acc.2) :
    wfDict (runFetchLoop g acc todo).1 ∧ wfDict (runFetchLoop g acc todo).2 := by
  induction todo generalizing acc with
  | nil => exact ⟨h1, h2⟩
  | cons d t ih =>
    rw [show runFetchLoop g acc (d :: t)
      = runFetchLoop g (fetchStep g acc d) t from rfl]
    apply ih
    all_goals cases hgd : g d
    case ok v =>
      rw [show fetchStep g acc d = (dictInsert acc.1 d v, dictRemove acc.2 d) by
        rw [fetchStep, hgd]]
      exact wfDict_dictInsert d v h1
    case error e =>
      rw [show fetchStep g acc d = (acc.1, dictInsert acc.2 d ⟨d, e⟩) by
        rw [fetchStep, hgd]]
      exact h1
    case ok v =>
      rw [show fetchStep g acc d = (dictInsert acc.1 d v, dictRemove acc.2 d) by
        rw [fetchStep, hgd]]
      exact wfDict_dictRemove d h2
    case error e =>
      rw [show fetchStep g acc d = (acc.1, dictInsert acc.2 d ⟨d, e⟩) by
        rw [fetchStep, hgd]]
      exact wfDict_dictInsert d ⟨d, e⟩ h2

theorem runFetch_resume_general (g : String → Except String FetchVal)
    (all_codes : List String) (results : Dict FetchVal) (errors : Dict FetchErr)
    (hall : all_codes.Nodup) (hres : wfDict results) (herr : wfDict errors) :
    (results.all (fun p =>
        decide (dlookup (runFetch g all_codes results errors).1 p.1 = some p.2))
      = true)
    ∧ ((all_codes.filter (fun c => containsKey results c)).all (fun c =>
        decide (c ∉ todoFetch all_codes results)) = true)
    ∧ runFetch g all_codes (runFetch g all_codes results errors).1
        (runFetch g all_codes results errors).2
      = runFetch g all_codes results errors := by
  have hnotin : ∀ c, containsKey results c = true →
      c ∉ todoFetch all_codes results := by
    intro c hcont hmem
    rw [todoFetch, List.mem_filter, hcont] at hmem
    simp at hmem
  have htodo0 : (todoFetch all_codes results).Nodup :=
    List.Nodup.filter _ hall
  refine ⟨?_, ?_, ?_⟩
  · rw [List.all_eq_true]
    intro p hp
    rw [decide_eq_true_eq]
    have hlook : dlookup results p.1 = some p.2 := dlookup_of_mem_wf hres hp
    have hcont : containsKey results p.1 = true := by
      rw [containsKey, hlook]
      rfl
    show dlookup (runFetchLoop g (results, errors)
      (todoFetch all_codes results)).1 p.1 = some p.2
    rw [runFetchLoop_res_untouched g (hnotin p.1 hcont)]
    exact hlook
  · rw [List.all_eq_true]
    intro c hc
    rw [decide_eq_true_eq]
    rw [List.mem_filter] at hc
    exact hnotin c hc.2
  · show runFetchLoop g (runFetch g all_codes results errors)
      (todoFetch all_codes (runFetch g all_codes results errors).1)
      = runFetch g all_codes results errors
    apply foldl_fixed
    intro c hc
    rw [todoFetch, List.mem_filter] at hc
    obtain ⟨hcall, hcnot⟩ := hc
    have hnotr1 : containsKey (runFetch g all_codes results errors).1 c = false := by
      cases hb : containsKey (runFetch g all_codes results errors).1 c
      · rfl
      · rw [hb] at hcnot
        exact absurd hcnot (by simp)
    have hnotr0 : containsKey results c = false := by
      cases hb : containsKey results c
      · rfl
      · exfalso
        have hmono : containsKey (runFetch g all_codes results errors).1 c = true :=
          runFetchLoop_containsKey_mono g (results, errors) hb
        rw [hmono] at hnotr1
        exact absurd hnotr1 (by simp)
    have hctodo : c ∈ todoFetch all_codes results :=
      List.mem_filter.2 ⟨hcall, by rw [hnotr0]; rfl⟩
    cases hgc : g c with
    | ok v =>
      exfalso
      have hok : dlookup (runFetch g all_codes results errors).1 c = some v :=
        runFetchLoop_res_ok g htodo0 hctodo hgc
      have : containsKey (runFetch g all_codes results errors).1 c = true := by
        rw [containsKey, hok]
        rfl
      rw [this] at hnotr1
      exact absurd hnotr1 (by simp)
    | error msg =>
      have herr1 : dlookup (runFetch g all_codes results errors).2 c
          = some ⟨c, msg⟩ :=
        (runFetchLoop_err_of_fail g (results, errors) htodo0 hctodo hgc).1
      have hwfe1 : wfDict (runFetch g all_codes results errors).2 :=
        (runFetchLoop_wf g (results, errors) hres herr).2
      rw [show fetchStep g (runFetch g all_codes results errors) c
          = ((runFetch g all_codes results errors).1,
            dictInsert (runFetch g all_codes results errors).2 c ⟨c, msg⟩) by
        rw [fetchStep, hgc]]
      rw [dictInsert_eq_self hwfe1 herr1]

/-- C7: a second non-retry run of the Trade Fetcher never reprocesses a code
already present in the results collection and leaves its stored entry
unchanged (first conjunct: every pre-existing entry survives a run; second
conjunct: results-present codes are excluded from the processed list); and
with the per-code request outcomes fixed, running the fetcher again on the
state produced by one run is the identity — the state after two consecutive
non-retry runs equals the state reachable by the single run over the codes
unprocessed before it (third conjunct). -/
theorem trade_fetcher_resume
    (resp : String → Except String (List ApiRow) × Except String (List ApiRow))
    (all_codes : List String) (results : Dict FetchVal) (errors : Dict FetchErr)
    (hall : all_codes.Nodup) (hres : wfDict results) (herr : wfDict errors) :
    (results.all (fun p =>
        decide (dlookup (runTradeFetcher resp all_codes results errors).1 p.1
          = some p.2)) = true)
    ∧ ((all_codes.filter (fun c => containsKey results c)).all (fun c =>
        decide (c ∉ todoFetch all_codes results)) = true)
    ∧ runTradeFetcher resp all_codes
        (runTradeFetcher resp all_codes results errors).1
        (runTradeFetcher resp all_codes results errors).2
      = runTradeFetcher resp all_codes results errors :=
  runFetch_resume_general
    (fun hs6 => fetch_hs6_data (resp hs6).1 (resp hs6).2)
    all_codes results errors hall hres herr

/-- Witness for C7: three target codes, one previously fetched (and left
untouched), one succeeding, one failing with an HTTP error. -/
theorem trade_fetcher_resume_witness :
    (([("300200", FetchVal.mk [("CHINA", 5)] [("CHINA", 9)])] : Dict FetchVal).all
        (fun p => decide (dlookup (runTradeFetcher
            (fun hs6 => if hs6 = "120100"
              then (Except.ok [], Except.ok [])
              else (Except.error "ClientResponseError: 500", Except.error "ClientResponseError: 500"))
            ["120100", "200300", "300200"]
            [("300200", FetchVal.mk [("CHINA", 5)] [("CHINA", 9)])]
            [("200300", FetchErr.mk "200300" "stale")]).1 p.1 = some p.2)) = true)
    ∧ ((["120100", "200300", "300200"].filter (fun c =>
        containsKey [("300200", FetchVal.mk [("CHINA", 5)] [("CHINA", 9)])] c)).all
          (fun c => decide (c ∉ todoFetch ["120100", "200300", "300200"]
            [("300200", FetchVal.mk [("CHINA", 5)] [("CHINA", 9)])])) = true)
    ∧ runTradeFetcher
        (fun hs6 => if hs6 = "120100"
          then (Except.ok [], Except.ok [])
          else (Except.error "ClientResponseError: 500", Except.error "ClientResponseError: 500"))
        ["120100", "200300", "300200"]
        (runTradeFetcher
          (fun hs6 => if hs6 = "120100"
            then (Except.ok [], Except.ok [])
            else (Except.error "ClientResponseError: 500", Except.error "ClientResponseError: 500"))
          ["120100", "200300", "300200"]
          [("300200", FetchVal.mk [("CHINA", 5)] [("CHINA", 9)])]
          [("200300", FetchErr.mk "200300" "stale")]).1
        (runTradeFetcher
          (fun hs6 => if hs6 = "120100"
            then (Except.ok [], Except.ok [])
            else (Except.error "ClientResponseError: 500", Except.error "ClientResponseError: 500"))
          ["120100", "200300", "300200"]
          [("300200", FetchVal.mk [("CHINA", 5)] [("CHINA", 9)])]
          [("200300", FetchErr.mk "200300" "stale")]).2
      = runTradeFetcher
          (fun hs6 => if hs6 = "120100"
            then (Except.ok [], Except.ok [])
            else (Except.error "ClientResponseError: 500", Except.error "ClientResponseError: 500"))
          ["120100", "200300", "300200"]
          [("300200", FetchVal.mk [("CHINA", 5)] [("CHINA", 9)])]
          [("200300", FetchErr.mk "200300" "stale")] :=
  trade_fetcher_resume
    (fun hs6 => if hs6 = "120100"
      then (Except.ok [], Except.ok [])
      else (Except.error "ClientResponseError: 500", Except.error "ClientResponseError: 500"))
    ["120100", "200300", "300200"]
    [("300200", FetchVal.mk [("CHINA", 5)] [("CHINA", 9)])]
    [("200300", FetchErr.mk "200300" "stale")]
    (by decide) (by unfold wfDict; decide) (by unfold wfDict; decide)

end MfgAudit
